import Mathlib

/-!
Verification of the client-side real-time synchronization layer of the
shithead repository: the WebSocket connection-lifecycle manager
(`src/unnamed/part_017`, class `Socket`), its inbound-message dispatch
registry (a JS `Map` of named handlers iterated by the `onmessage` loop),
and the lobby session protocol driven by the Vue views
(`src/unnamed/part_011` — `Lobby.vue` — together with the `InLobby`
component found as the second script of
`src/client/src/components/SocketConnection.vue`, whose
`handleLobbyMessages` is the steady-state lobby handler).

The embedding is shallow: each TypeScript function becomes a Lean
function on an explicit state record; the JS event loop becomes a step
function on events; the JS `Map` becomes an insertion-ordered list
(with ECMAScript tombstone slots where live iteration under mutation
matters); `JSON.stringify` becomes an explicit string builder.
-/

namespace Shithead

/-! ## Wire types

`ClickedCardLocation`, `ClientMessage` and `ServerMessage` follow the
variant-name-keyed wire encoding used by this client revision
(`src/shithead_game_server/bindings/ServerMessage.ts` and the second
revision inside `src/shithead_game_server/bindings/bindings.ts`).
The `joinLobby` acknowledgement payload (lobby id plus player list) is
the shape the `Lobby.vue` handler reads (`msg.joinLobby.players`);
its binding revision is not under `src/`, so the field shape follows
spec section 6: `joinLobby{lobbyId: LobbyId, players: ExposedLobbyPlayerInfo[]}`. -/

/-- `ClickedCardLocation` from the bindings: `"trash"` or
`{myCards: {cardIndex}}`. -/
inductive ClickedCardLocation
  | trash
  | myCards (cardIndex : Nat)
  deriving DecidableEq, Repr

/-- `ExposedLobbyPlayerInfo` from the bindings: `{id, username}`. -/
structure ExposedLobbyPlayerInfo where
  id : Nat
  username : String
  deriving DecidableEq, Repr

/-- `ExposedLobbyInfo` from the bindings:
`{name, id, players, owner_id}`. -/
structure ExposedLobbyInfo where
  name : String
  id : Nat
  players : List ExposedLobbyPlayerInfo
  owner_id : Nat
  deriving DecidableEq, Repr

/-- Outbound `ClientMessage` tagged union (spec section 6 and the
bindings; payload-free variants are bare strings on the wire). -/
inductive ClientMessage
  | setUsername (newName : String)
  | getLobbies
  | joinLobby (id : Nat)
  | createLobby (lobbyName : String)
  | startGame
  | leaveLobby
  | clickCard (location : ClickedCardLocation)
  deriving DecidableEq, Repr

/-- Inbound `ServerMessage` tagged union. The `joinLobby`
acknowledgement carries the lobby id and the player roster
(modelled from the spec, section 6, since the matching bindings
revision is not under `src/`); the remaining variants follow the
bindings under `src/`. -/
inductive ServerMessage
  | handshake (id : Nat) (username : String)
  | lobbies (list : List ExposedLobbyInfo)
  | joinLobby (lobbyId : Nat) (players : List ExposedLobbyPlayerInfo)
  | error (message : String)
  | playerJoinedLobby (id : Nat) (username : String)
  | playerLeftLobby (id : Nat)
  | lobbyOwnerChanged (newOwnerId : Nat)
  | ownerLeftLobby (newOwnerId : Nat)
  | startGame
  | clickCard (location : ClickedCardLocation)
  | initialCards (cardsInHand : List Nat) (threeUpCards : List Nat)
  deriving DecidableEq, Repr

/-! ## JSON serialization (`JSON.stringify` on outbound messages) -/

/-- One character of `JSON.stringify` string escaping (quote and
backslash; the messages in play contain no control characters). -/
def jsonEscapeChar (c : Char) : String :=
  if c = '\\' then "\\\\"
  else if c = '\"' then "\\\""
  else String.singleton c

/-- `JSON.stringify` body of a string. -/
def jsonEscape (s : String) : String :=
  String.join (s.toList.map jsonEscapeChar)

/-- A JSON string literal. -/
def jsonStr (s : String) : String :=
  "\"" ++ jsonEscape s ++ "\""

/-- JSON text of a `ClickedCardLocation`. -/
def serializeLocation : ClickedCardLocation → String
  | ClickedCardLocation.trash => jsonStr "trash"
  | ClickedCardLocation.myCards i =>
      "\x7b" ++ jsonStr "myCards" ++ ":\x7b" ++ jsonStr "cardIndex" ++ ":"
        ++ toString i ++ "\x7d\x7d"

/-- `JSON.stringify message` for the outbound union: payload-free
variants serialize as bare JSON strings, the rest as one-key objects
(the variant-name-keyed encoding). -/
def serializeClient : ClientMessage → String
  | ClientMessage.setUsername n =>
      "\x7b" ++ jsonStr "setUsername" ++ ":" ++ jsonStr n ++ "\x7d"
  | ClientMessage.getLobbies => jsonStr "getLobbies"
  | ClientMessage.joinLobby i =>
      "\x7b" ++ jsonStr "joinLobby" ++ ":" ++ toString i ++ "\x7d"
  | ClientMessage.createLobby name =>
      "\x7b" ++ jsonStr "createLobby" ++ ":\x7b" ++ jsonStr "lobbyName" ++ ":"
        ++ jsonStr name ++ "\x7d\x7d"
  | ClientMessage.startGame => jsonStr "startGame"
  | ClientMessage.leaveLobby => jsonStr "leaveLobby"
  | ClientMessage.clickCard loc =>
      "\x7b" ++ jsonStr "clickCard" ++ ":" ++ serializeLocation loc ++ "\x7d"

/-! ## Handler registry: the ECMAScript `Map`

`Socket.messageHandlers` is a JS `Map<string, OnMessageCallback>`. The
`onmessage` loop iterates it live (`for (let [_, handler] of
this.messageHandlers)`), and handlers may mutate the map during the
iteration, so the model keeps ECMAScript observable semantics: the map
is a list of slots in insertion order; `delete` empties a slot
(tombstone) without moving later entries; `set` of an absent key
appends a slot; an iterator walks the slots by index, skipping emptied
ones and reaching entries appended after it started.

A handler's effect on the registry is deep-embedded: each registered
handler carries a numeric code, and an environment maps each code to
the list of registry edits that handler performs when invoked. -/

/-- One registry edit a handler may perform while running:
`messageHandlers.set name code` or `messageHandlers.delete name`. -/
inductive RegEdit
  | setEntry (name : String) (code : Nat)
  | delEntry (name : String)
  deriving DecidableEq, Repr

/-- The registry: insertion-ordered slots; `none` is a tombstone left
by `delete`. -/
abbrev HandlerRegistry := List (Option (String × Nat))

/-- ECMAScript `Map.prototype.set`: update in place when the key is
live, otherwise append a fresh slot. -/
def mapSet (reg : HandlerRegistry) (k : String) (code : Nat) : HandlerRegistry :=
  if reg.any (fun slot => slot.any (fun e => e.1 = k)) then
    reg.map (fun slot =>
      match slot with
      | some e => if e.1 = k then some (k, code) else some e
      | none => none)
  else
    reg ++ [some (k, code)]

/-- ECMAScript `Map.prototype.delete`: empty the slot holding the key
(slot positions of other entries are unchanged). -/
def mapDelete (reg : HandlerRegistry) (k : String) : HandlerRegistry :=
  reg.map (fun slot =>
    match slot with
    | some e => if e.1 = k then none else some e
    | none => none)

/-- The keys of the live (non-tombstoned) entries, in insertion
order: the observable contents of the `Map`. -/
def liveEntries (reg : HandlerRegistry) : List (String × Nat) :=
  reg.filterMap id

/-- Apply a handler's registry edits in order. -/
def applyEdits (reg : HandlerRegistry) (edits : List RegEdit) : HandlerRegistry :=
  edits.foldl (fun r e =>
    match e with
    | RegEdit.setEntry k c => mapSet r k c
    | RegEdit.delEntry k => mapDelete r k) reg

/-- The `onmessage` dispatch loop from index `i` on: visit each slot
in order, skip tombstones, invoke live handlers (recording their names
and applying their registry edits), and keep going over the live,
possibly growing registry. The loop itself always terminates in JS
once the map stops growing; `fuel` bounds the number of slot visits so
the model is structurally recursive, and every theorem instantiates it
above the number of slots the run touches. -/
def dispatchFrom (env : Nat → List RegEdit) :
    Nat → HandlerRegistry → Nat → List String × HandlerRegistry
  | 0, reg, _ => ([], reg)
  | fuel + 1, reg, i =>
    if h : i < reg.length then
      match reg.get ⟨i, h⟩ with
      | none => dispatchFrom env fuel reg (i + 1)
      | some (k, code) =>
          let reg' := applyEdits reg (env code)
          let rest := dispatchFrom env fuel reg' (i + 1)
          (k :: rest.1, rest.2)
    else ([], reg)

/-- One full run of the `onmessage` loop over the registry:
`for (let [_, handler] of this.messageHandlers) handler(message, this)`.
Returns the names of the handlers invoked, in invocation order, and
the registry as it stands afterwards. -/
def socketDispatch (env : Nat → List RegEdit) (fuel : Nat)
    (reg : HandlerRegistry) : List String × HandlerRegistry :=
  dispatchFrom env fuel reg 0

/-! ## The `Socket` class of `src/unnamed/part_017` -/

/-- `WebSocket.readyState` values. -/
inductive ReadyState
  | CONNECTING
  | OPEN
  | CLOSING
  | CLOSED
  deriving DecidableEq, Repr

/-- One physical `WebSocket`: its url, lifecycle state, the transcript
of frames actually transmitted by `WebSocket.send`, and which of the
three event callbacks have been wired on this object. -/
structure WSConnection where
  url : String
  readyState : ReadyState
  sentFrames : List String
  onopenWired : Bool
  oncloseWired : Bool
  onmessageWired : Bool
  deriving DecidableEq, Repr

/-- `new WebSocket(url)`: a fresh connection, no callbacks wired,
nothing transmitted yet. -/
def WSConnection.new (url : String) : WSConnection :=
  { url := url
    readyState := ReadyState.CONNECTING
    sentFrames := []
    onopenWired := false
    oncloseWired := false
    onmessageWired := false }

/-- The `Socket` wrapper of `src/unnamed/part_017`: the current
physical connection, the handler registry (a field of the wrapper, not
of the physical connection), and the delays of the reconnection timers
currently scheduled by `setTimeout`. -/
structure Socket where
  connection : WSConnection
  messageHandlers : HandlerRegistry
  pendingReconnects : List Nat
  deriving DecidableEq, Repr

/-- `reconnectionTimeout = 5000`. -/
def reconnectionTimeout : Nat := 5000

namespace Socket

/-- `setSocketHandlers()`: wires `onopen` and `onclose` on the current
connection. In this revision it does not touch `onmessage`. -/
def setSocketHandlers (s : Socket) : Socket :=
  { s with connection :=
      { s.connection with onopenWired := true, oncloseWired := true } }

/-- The constructor `new Socket(serverUrl, onOpen)`: creates the
physical connection, wires open/close via `setSocketHandlers`, then
installs the `onmessage` dispatch loop directly on that first
connection. -/
def new (serverUrl : String) : Socket :=
  let s : Socket :=
    { connection := WSConnection.new serverUrl
      messageHandlers := []
      pendingReconnects := [] }
  let s := s.setSocketHandlers
  { s with connection := { s.connection with onmessageWired := true } }

/-- `send(message)`: serialize and transmit only when
`connection.readyState == WebSocket.OPEN`; otherwise fall through
(no queue, no buffer, no exception — the state is returned
unchanged). -/
def send (s : Socket) (message : ClientMessage) : Socket :=
  if s.connection.readyState = ReadyState.OPEN then
    { s with connection :=
        { s.connection with
            sentFrames := s.connection.sentFrames ++ [serializeClient message] } }
  else s

/-- `reconnect()`: schedules one `setTimeout` for
`reconnectionTimeout` milliseconds. -/
def reconnect (s : Socket) : Socket :=
  { s with pendingReconnects := s.pendingReconnects ++ [reconnectionTimeout] }

/-- The wired `onclose` callback: `() => this.reconnect()`. -/
def onCloseEvent (s : Socket) : Socket :=
  s.reconnect

/-- The body of the scheduled timer:
`this.connection = new WebSocket(this.connection.url); this.setSocketHandlers()`.
The fired timer leaves the pending list. -/
def fireReconnectTimer (s : Socket) : Socket :=
  let s' : Socket :=
    { s with connection := WSConnection.new s.connection.url
             pendingReconnects := s.pendingReconnects.drop 1 }
  s'.setSocketHandlers

/-- An inbound frame on the current physical connection: the
`onmessage` dispatch loop runs only if it was wired on this
connection object. Returns the handlers invoked and the socket
afterwards. -/
def messageEvent (env : Nat → List RegEdit) (fuel : Nat) (s : Socket) :
    List String × Socket :=
  if s.connection.onmessageWired then
    let out := socketDispatch env fuel s.messageHandlers
    (out.1, { s with messageHandlers := out.2 })
  else ([], s)

end Socket

end Shithead

namespace Shithead

/-! ## Dispatch lemmas -/

/-- The live keys of the registry from slot `i` on, in slot order. -/
def liveKeysFrom (reg : HandlerRegistry) (i : Nat) : List String :=
  ((reg.drop i).filterMap id).map Prod.fst

/-- An environment in which no handler mutates the registry makes
`applyEdits` the identity, and the dispatch loop then visits exactly
the live entries from `i` on, leaving the registry unchanged. -/
theorem dispatchFrom_inert (env : Nat → List RegEdit)
    (henv : ∀ c, env c = []) :
    ∀ (fuel : Nat) (reg : HandlerRegistry) (i : Nat),
      reg.length - i ≤ fuel →
      dispatchFrom env fuel reg i = (liveKeysFrom reg i, reg) := by
  intro fuel
  induction fuel with
  | zero =>
    intro reg i hle
    have h : reg.length ≤ i := by omega
    simp [dispatchFrom, liveKeysFrom, List.drop_eq_nil_of_le h]
  | succ fuel ih =>
    intro reg i hle
    by_cases h : i < reg.length
    · have hdrop : reg.drop i = reg.get ⟨i, h⟩ :: reg.drop (i + 1) :=
        List.drop_eq_getElem_cons h
      have hrec : reg.length - (i + 1) ≤ fuel := by omega
      cases hslot : reg.get ⟨i, h⟩ with
      | none =>
        rw [hslot] at hdrop
        simp only [dispatchFrom, dif_pos h, hslot]
        rw [ih reg (i + 1) hrec]
        simp [liveKeysFrom, hdrop, List.filterMap_cons]
      | some e =>
        obtain ⟨k, code⟩ := e
        rw [hslot] at hdrop
        simp only [dispatchFrom, dif_pos h, hslot]
        have hid : applyEdits reg (env code) = reg := by
          rw [henv]; rfl
        rw [hid, ih reg (i + 1) hrec]
        simp [liveKeysFrom, hdrop, List.filterMap_cons]
    · simp only [dispatchFrom, dif_neg h]
      have hle' : reg.length ≤ i := by omega
      simp [liveKeysFrom, List.drop_eq_nil_of_le hle']

/-- Environment for the mutation scenarios: handler code `0` does
nothing, code `1` unregisters the handler named `"b"`, code `2`
registers a new handler `"c"` running code `0`. -/
def envMut : Nat → List RegEdit
  | 1 => [RegEdit.delEntry "b"]
  | 2 => [RegEdit.setEntry "c" 0]
  | _ => []

/-! ## C2: which handlers a dispatch invokes -/

/-- C2 counterexample: with handlers `a` (which unregisters `b`) and
`b` both registered when dispatch begins, the live `for..of` loop over
the JS `Map` invokes only `a` — the handler `b`, registered at the
moment dispatch began but unregistered by `a` mid-dispatch, is never
invoked, contradicting the claim that it still is. -/
theorem dispatch_skips_handler_deleted_mid_dispatch :
    liveEntries [some ("a", 1), some ("b", 0)] = [("a", 1), ("b", 0)] ∧
    (socketDispatch envMut 10 [some ("a", 1), some ("b", 0)]).1 = ["a"] := by
  constructor
  · rfl
  · rfl

/-- C2 amended: the dispatch loop iterates the live registry rather
than a snapshot. When no invoked handler mutates the registry, exactly
the handlers registered at the moment dispatch began are invoked, in
insertion order, and the registry is unchanged; but a handler
unregistered mid-dispatch before being reached is not invoked, and a
handler registered mid-dispatch is invoked in that same dispatch. -/
theorem dispatch_live_iteration (env : Nat → List RegEdit)
    (reg : HandlerRegistry) (fuel : Nat)
    (henv : ∀ c, env c = []) (hfuel : reg.length ≤ fuel) :
    socketDispatch env fuel reg = ((liveEntries reg).map Prod.fst, reg) ∧
    (socketDispatch envMut 10 [some ("a", 1), some ("b", 0)]).1 = ["a"] ∧
    (socketDispatch envMut 10 [some ("a", 2)]).1 = ["a", "c"] := by
  refine ⟨?_, rfl, rfl⟩
  have h := dispatchFrom_inert env henv fuel reg 0 (by omega)
  simpa [socketDispatch, liveKeysFrom, liveEntries] using h

/-- An environment in which every handler leaves the registry
alone. -/
def envInert : Nat → List RegEdit := fun _ => []

/-- Witness for C2 amended at concrete inputs: two inert handlers are
both invoked in insertion order and the registry is preserved. -/
theorem dispatch_live_iteration_witness :
    socketDispatch envInert 5 [some ("x", 0), some ("y", 0)]
      = ((liveEntries [some ("x", 0), some ("y", 0)]).map Prod.fst,
          [some ("x", 0), some ("y", 0)]) :=
  (dispatch_live_iteration envInert [some ("x", 0), some ("y", 0)] 5
    (fun _ => rfl) (by decide)).1

/-! ## C3: what the close/reconnect cycle re-arms -/

/-- C3 (the code evaluated at the failing input): on a close event
exactly one reconnection attempt is scheduled, carrying the fixed
5000ms delay; firing it creates one new physical connection to the
same url and re-arms `onopen` and `onclose` via `setSocketHandlers` —
but not `onmessage`, which the constructor wired only on the original
connection object. An inbound frame that invoked the registered
handler before the cycle invokes no handler at all afterwards, even
though the handler is still registered. -/
theorem reconnect_loses_message_dispatch :
    ((({ Socket.new "ws://localhost:7522" with
          messageHandlers := [some ("getClientId", 0)] } : Socket).messageEvent
            envInert 5).1 = ["getClientId"]) ∧
    (({ Socket.new "ws://localhost:7522" with
          messageHandlers := [some ("getClientId", 0)] } : Socket).onCloseEvent.pendingReconnects
        = [5000]) ∧
    (let s2 := ({ Socket.new "ws://localhost:7522" with
          messageHandlers := [some ("getClientId", 0)] } : Socket).onCloseEvent.fireReconnectTimer
     s2.connection.url = "ws://localhost:7522" ∧
     s2.connection.onopenWired = true ∧
     s2.connection.oncloseWired = true ∧
     s2.connection.onmessageWired = false ∧
     s2.messageHandlers = [some ("getClientId", 0)] ∧
     s2.pendingReconnects = [] ∧
     (s2.messageEvent envInert 5).1 = []) := by
  refine ⟨rfl, rfl, rfl, rfl, rfl, rfl, rfl, rfl, rfl⟩

/-! ## C4: the handler registry survives reconnect -/

/-- C4: replacing the physical connection on a close/reconnect cycle
leaves the handler registry untouched: both the scheduling step (the
close event) and the delayed creation of the new connection preserve
every registered (name, handler) entry. -/
theorem reconnect_preserves_registry (s : Socket) :
    s.onCloseEvent.messageHandlers = s.messageHandlers ∧
    s.onCloseEvent.fireReconnectTimer.messageHandlers = s.messageHandlers :=
  ⟨rfl, rfl⟩

/-! ## The lobby session of `src/unnamed/part_011`

The shared `states` object (`game/states.ts`, the revision
`src/unnamed/part_015` extended with `lobbyId`, `lobbyState`,
`isOwner` used by `part_011`), the `Lobby.vue` view of
`src/unnamed/part_011`, and the `InLobby` component (second script of
`src/client/src/components/SocketConnection.vue`) with its
`handleLobbyMessages` handler. Vue reactivity is folded in: setting
`states.lobbyState` to `'inLobby'` mounts `InLobby`, whose `onMounted`
registers `handleLobbyMessages`; leaving `'inLobby'` unmounts it,
whose `onUnmounted` deregisters the handler. The model assumes the
handshake already delivered the local client's id and name (the code
casts `states.id as types.ClientId`). -/

/-- `states.lobbyState` values other than `null`. -/
inductive LobbyState
  | inLobby
  | inGame
  deriving DecidableEq, Repr

/-- The lobby-relevant shared state plus the registration status of
the two session handlers, the commands handed to `gameSocket.send`,
and whether `router.push("/")` was signalled. `addToLobbyReg` holds
the route lobby id the transient join handler closed over when it is
registered. -/
structure SessionState where
  lobbyId : Option Nat
  lobbyState : Option LobbyState
  players : List (Nat × String)
  isOwner : Bool
  id : Nat
  name : String
  addToLobbyReg : Option Nat
  handleLobbyReg : Bool
  sent : List ClientMessage
  wentHome : Bool
  deriving DecidableEq, Repr

/-- `states.players.value.set(k, v)` on the JS `Map`: update in place
when present, append otherwise. -/
def rosterSet (m : List (Nat × String)) (k : Nat) (v : String) :
    List (Nat × String) :=
  if m.any (fun e => e.1 = k) then
    m.map (fun e => if e.1 = k then (k, v) else e)
  else m ++ [(k, v)]

/-- `states.players.value.delete(k)`. -/
def rosterDelete (m : List (Nat × String)) (k : Nat) : List (Nat × String) :=
  m.filter (fun e => e.1 ≠ k)

/-- The keys of the roster, in insertion order. -/
def rosterKeys (m : List (Nat × String)) : List Nat :=
  m.map Prod.fst

/-- `handleLobbyMessages` (steady-state lobby handler, second script
of `SocketConnection.vue`): inserts on `playerJoinedLobby`, removes on
`playerLeftLobby`, grants ownership on `ownerLeftLobby` only when the
new owner id is the local id (the other branch merely pushes a
notification), switches to `'inGame'` on `startGame`, and ignores
everything else. Notification strings are transient UI output and not
part of the session state. -/
def handleLobbyMessages (message : ServerMessage) (s : SessionState) :
    SessionState :=
  match message with
  | ServerMessage.playerJoinedLobby pid pname =>
      { s with players := rosterSet s.players pid pname }
  | ServerMessage.playerLeftLobby pid =>
      { s with players := rosterDelete s.players pid }
  | ServerMessage.ownerLeftLobby newOwnerId =>
      if s.id = newOwnerId then { s with isOwner := true } else s
  | ServerMessage.startGame =>
      { s with lobbyState := some LobbyState.inGame }
  | _ => s

/-- The transient handler registered under `"addToLobby"` by
`Lobby.vue`'s `onMounted` (`part_011`, closing over the route lobby id
`t`): on a `joinLobby` acknowledgement it adopts the route lobby id,
inserts the local client into the roster, seeds the roster from the
payload, deregisters itself and sets the phase to `'inLobby'`; on any
other message it deregisters itself and signals navigation home. -/
def addToLobbyHandler (t : Nat) (message : ServerMessage)
    (s : SessionState) : SessionState :=
  match message with
  | ServerMessage.joinLobby _ players =>
      let s1 := { s with lobbyId := some t }
      let s2 := { s1 with players := rosterSet s1.players s1.id s1.name }
      let s3 := { s2 with players :=
                    (players.foldl
                      (fun acc (p : ExposedLobbyPlayerInfo) =>
                        rosterSet acc p.id p.username)
                      s2.players) }
      let s4 := { s3 with addToLobbyReg := none }
      { s4 with lobbyState := some LobbyState.inLobby }
  | _ => { s with addToLobbyReg := none, wentHome := true }

/-- The reactive mount/unmount effect of the `InLobby` component:
entering `'inLobby'` registers `handleLobbyMessages`, leaving it
deregisters (its `onMounted`/`onUnmounted`). `old` is the phase
before the event being processed. -/
def applyMountEffects (old : Option LobbyState) (s : SessionState) :
    SessionState :=
  if s.lobbyState = some LobbyState.inLobby ∧ old ≠ some LobbyState.inLobby then
    { s with handleLobbyReg := true }
  else if old = some LobbyState.inLobby ∧ s.lobbyState ≠ some LobbyState.inLobby then
    { s with handleLobbyReg := false }
  else s

/-- The discrete events driving the session: mounting the lobby view
for route id `t` (`onMounted`), one inbound frame dispatched by the
socket, and leaving the lobby route (`onBeforeRouteLeave` plus the
unmount of the view tree). -/
inductive SessionEvent
  | mountLobby (t : Nat)
  | inbound (m : ServerMessage)
  | leaveRoute (t : Nat)
  deriving DecidableEq, Repr

/-- One step of the session machine.

`mountLobby t`: if `states.lobbyId != t`, register the transient
`"addToLobby"` handler and send `joinLobby t`; otherwise the no-op
join (`else` branch of `onMounted`): re-insert the local client and go
straight to `'inLobby'`.

`inbound m`: the socket dispatch loop hands `m` to the registered
handlers in registration order — the transient join handler if
registered, then `handleLobbyMessages` if registered — after which the
mount/unmount reactions to any phase change fire.

`leaveRoute t`: `onBeforeRouteLeave` of `part_011` — when
`states.lobbyId == t` it resets the phase, clears the roster and sends
`leaveLobby`; in every case `isOwner` is reset and the unmounting view
tree removes the steady-state handler. -/
def sessionStep (s : SessionState) (e : SessionEvent) : SessionState :=
  match e with
  | SessionEvent.mountLobby t =>
      if s.lobbyId ≠ some t then
        { s with addToLobbyReg := some t,
                 sent := s.sent ++ [ClientMessage.joinLobby t] }
      else
        let old := s.lobbyState
        let s1 := { s with players := rosterSet s.players s.id s.name }
        let s2 := { s1 with lobbyState := some LobbyState.inLobby }
        applyMountEffects old s2
  | SessionEvent.inbound m =>
      let old := s.lobbyState
      let s1 :=
        match s.addToLobbyReg with
        | some t => addToLobbyHandler t m s
        | none => s
      let s2 := if s1.handleLobbyReg then handleLobbyMessages m s1 else s1
      applyMountEffects old s2
  | SessionEvent.leaveRoute t =>
      let s1 :=
        if s.lobbyId = some t then
          { s with lobbyState := none, players := [],
                   sent := s.sent ++ [ClientMessage.leaveLobby] }
        else s
      { s1 with isOwner := false, handleLobbyReg := false }

/-- The shared state at application start: not in any lobby, empty
roster, no ownership, no session handler registered; the handshake has
assigned the local client its id and name. -/
def initialSession (selfId : Nat) (selfName : String) : SessionState :=
  { lobbyId := none
    lobbyState := none
    players := []
    isOwner := false
    id := selfId
    name := selfName
    addToLobbyReg := none
    handleLobbyReg := false
    sent := []
    wentHome := false }

/-- Run a sequence of session events from a state. -/
def runSession (s : SessionState) (events : List SessionEvent) : SessionState :=
  events.foldl sessionStep s

/-! ## Roster map lemmas -/

theorem rosterKeys_set (m : List (Nat × String)) (k : Nat) (v : String) :
    rosterKeys (rosterSet m k v) =
      if m.any (fun e => e.1 = k) then rosterKeys m else rosterKeys m ++ [k] := by
  unfold rosterSet rosterKeys
  by_cases h : m.any (fun e => e.1 = k)
  · simp only [h, if_true, List.map_map]
    apply List.map_congr_left
    intro e _
    by_cases hek : e.1 = k
    · simp [hek]
    · simp [hek]
  · simp [h]

theorem rosterKeys_set_self (m : List (Nat × String)) (k : Nat) (v : String) :
    k ∈ rosterKeys (rosterSet m k v) := by
  rw [rosterKeys_set]
  by_cases h : m.any (fun e => e.1 = k)
  · simp only [h, if_true]
    rcases List.any_eq_true.mp h with ⟨e, hmem, he⟩
    have he' : e.1 = k := by simpa using he
    exact he' ▸ List.mem_map.mpr ⟨e, hmem, rfl⟩
  · simp [h]

theorem rosterKeys_set_mem (m : List (Nat × String)) (k k' : Nat) (v : String)
    (h : k ∈ rosterKeys m) : k ∈ rosterKeys (rosterSet m k' v) := by
  rw [rosterKeys_set]
  by_cases hany : m.any (fun e => e.1 = k')
  · simpa [hany] using h
  · simp [hany, h]

theorem rosterKeys_foldl_set_mem (players : List ExposedLobbyPlayerInfo) :
    ∀ (m : List (Nat × String)) (k : Nat), k ∈ rosterKeys m →
      k ∈ rosterKeys (players.foldl
        (fun acc (p : ExposedLobbyPlayerInfo) => rosterSet acc p.id p.username) m) := by
  induction players with
  | nil => intro m k h; exact h
  | cons p ps ih =>
      intro m k h
      exact ih _ _ (rosterKeys_set_mem _ _ _ _ h)

theorem rosterKeys_delete_mem (m : List (Nat × String)) (pid k : Nat)
    (hne : pid ≠ k) (h : k ∈ rosterKeys m) :
    k ∈ rosterKeys (rosterDelete m pid) := by
  unfold rosterDelete rosterKeys at *
  rcases List.mem_map.mp h with ⟨e, hmem, hk⟩
  refine List.mem_map.mpr ⟨e, List.mem_filter.mpr ⟨hmem, ?_⟩, hk⟩
  simp only [decide_eq_true_eq]
  rw [hk]
  exact Ne.symm hne

theorem ne_nil_of_mem_rosterKeys {m : List (Nat × String)} {k : Nat}
    (h : k ∈ rosterKeys m) : m ≠ [] := by
  intro hnil
  subst hnil
  simp [rosterKeys] at h

theorem rosterSet_map_fix (m : List (Nat × String)) (k : Nat) (v : String)
    (h : ∀ e ∈ m, e.1 ≠ k) :
    m.map (fun e => if e.1 = k then (k, v) else e) = m := by
  apply List.map_congr_left ?_ |>.trans m.map_id
  intro e he
  simp [h e he]

theorem rosterSet_of_any (m : List (Nat × String)) (k : Nat) (v : String)
    (h : m.any (fun e => e.1 = k) = true) :
    rosterSet m k v = m.map (fun e => if e.1 = k then (k, v) else e) := by
  unfold rosterSet
  rw [if_pos h]

theorem rosterSet_entry (m : List (Nat × String)) (k : Nat) (v : String) :
    ∀ e ∈ rosterSet m k v, e.1 = k → e = (k, v) := by
  intro e he hek
  unfold rosterSet at he
  by_cases h : m.any (fun e => e.1 = k)
  · rw [if_pos h] at he
    rcases List.mem_map.mp he with ⟨e', _, rfl⟩
    by_cases h' : e'.1 = k
    · simp [h']
    · rw [if_neg h'] at hek
      exact absurd hek h'
  · rw [if_neg h] at he
    rcases List.mem_append.mp he with h1 | h1
    · have hcontra : m.any (fun e => e.1 = k) = true :=
        List.any_eq_true.mpr ⟨e, h1, by simp [hek]⟩
      exact absurd hcontra h
    · simpa using h1

theorem rosterSet_idem (m : List (Nat × String)) (k : Nat) (v : String) :
    rosterSet (rosterSet m k v) k v = rosterSet m k v := by
  have hmem := rosterKeys_set_self m k v
  have hany : (rosterSet m k v).any (fun e => e.1 = k) = true := by
    rcases List.mem_map.mp hmem with ⟨e, hmem', hk⟩
    exact List.any_eq_true.mpr ⟨e, hmem', by simp [hk]⟩
  rw [rosterSet_of_any _ _ _ hany]
  apply (List.map_congr_left ?_).trans (List.map_id _)
  intro e he
  by_cases hek : e.1 = k
  · rw [if_pos hek]
    exact (rosterSet_entry m k v e he hek).symm
  · rw [if_neg hek]
    rfl

theorem rosterDelete_idem (m : List (Nat × String)) (k : Nat) :
    rosterDelete (rosterDelete m k) k = rosterDelete m k := by
  unfold rosterDelete
  apply List.filter_eq_self.mpr
  intro e he
  exact (List.mem_filter.mp he).2

theorem rosterDelete_absent (m : List (Nat × String)) (k : Nat)
    (h : k ∉ rosterKeys m) : rosterDelete m k = m := by
  unfold rosterDelete
  apply List.filter_eq_self.mpr
  intro e he
  simp only [decide_eq_true_eq]
  intro hek
  exact h (List.mem_map.mpr ⟨e, he, hek⟩)

/-! ## `applyMountEffects` projection lemmas -/

theorem applyMountEffects_self (s : SessionState) :
    applyMountEffects s.lobbyState s = s := by
  unfold applyMountEffects
  rw [if_neg (fun h => h.2 h.1), if_neg (fun h => h.2 h.1)]

theorem applyMountEffects_lobbyState (old : Option LobbyState) (s : SessionState) :
    (applyMountEffects old s).lobbyState = s.lobbyState := by
  unfold applyMountEffects
  split_ifs <;> rfl

theorem applyMountEffects_players (old : Option LobbyState) (s : SessionState) :
    (applyMountEffects old s).players = s.players := by
  unfold applyMountEffects
  split_ifs <;> rfl

theorem applyMountEffects_isOwner (old : Option LobbyState) (s : SessionState) :
    (applyMountEffects old s).isOwner = s.isOwner := by
  unfold applyMountEffects
  split_ifs <;> rfl

theorem applyMountEffects_id (old : Option LobbyState) (s : SessionState) :
    (applyMountEffects old s).id = s.id := by
  unfold applyMountEffects
  split_ifs <;> rfl

theorem applyMountEffects_handleLobbyReg (old : Option LobbyState) (s : SessionState) :
    (applyMountEffects old s).handleLobbyReg =
      if s.lobbyState = some LobbyState.inLobby ∧ old ≠ some LobbyState.inLobby then
        true
      else if old = some LobbyState.inLobby ∧ s.lobbyState ≠ some LobbyState.inLobby then
        false
      else s.handleLobbyReg := by
  unfold applyMountEffects
  split_ifs <;> rfl

theorem applyMountEffects_eq_self (old : Option LobbyState) (s : SessionState)
    (h : s.lobbyState = old) : applyMountEffects old s = s := by
  subst h
  exact applyMountEffects_self s

/-! ## The session invariant -/

/-- The invariant of spec section 3: the roster is non-empty exactly
when the phase is `'inLobby'` or `'inGame'`, and `isOwner` is false
whenever the phase is `NotInLobby` (`lobbyState` is `null`). -/
def SessionInv (s : SessionState) : Prop :=
  (s.players ≠ [] ↔
    (s.lobbyState = some LobbyState.inLobby ∨ s.lobbyState = some LobbyState.inGame)) ∧
  (s.lobbyState = none → s.isOwner = false)

/-- Strengthened inductive invariant: the local client stays in the
roster while in a lobby or in game, the shared state is fully reset
outside a lobby, and the steady-state handler is registered only while
`'inLobby'`. -/
def SessionInvStrong (s : SessionState) : Prop :=
  ((s.lobbyState = some LobbyState.inLobby ∨ s.lobbyState = some LobbyState.inGame) →
      s.id ∈ rosterKeys s.players) ∧
  (s.lobbyState = none → s.players = [] ∧ s.isOwner = false) ∧
  (s.handleLobbyReg = true → s.lobbyState = some LobbyState.inLobby)

theorem sessionInvStrong_applyMountEffects_of_eq (old : Option LobbyState)
    (s : SessionState) (h : s.lobbyState = old) (hs : SessionInvStrong s) :
    SessionInvStrong (applyMountEffects old s) := by
  rw [applyMountEffects_eq_self old s h]
  exact hs

theorem steady_dispatch_preserves (s : SessionState) (m : ServerMessage)
    (hkey : (s.lobbyState = some LobbyState.inLobby ∨ s.lobbyState = some LobbyState.inGame) →
      s.id ∈ rosterKeys s.players)
    (hnone : s.lobbyState = none → s.players = [] ∧ s.isOwner = false)
    (hreg : s.handleLobbyReg = true → s.lobbyState = some LobbyState.inLobby)
    (hsafe : ∀ pid, m = ServerMessage.playerLeftLobby pid → pid ≠ s.id) :
    SessionInvStrong
      (applyMountEffects s.lobbyState
        (if s.handleLobbyReg then handleLobbyMessages m s else s)) := by
  by_cases hb : s.handleLobbyReg
  · have hL : s.lobbyState = some LobbyState.inLobby := hreg hb
    rw [if_pos hb]
    cases m with
    | playerJoinedLobby pid pname =>
      simp only [handleLobbyMessages]
      apply sessionInvStrong_applyMountEffects_of_eq _ _ rfl
      refine ⟨?_, ?_, ?_⟩
      · intro _
        exact rosterKeys_set_mem _ _ _ _ (hkey (Or.inl hL))
      · intro hn
        have hn' : s.lobbyState = none := hn
        rw [hL] at hn'
        exact Option.noConfusion hn'
      · intro _
        exact hL
    | playerLeftLobby pid =>
      have hne : pid ≠ s.id := hsafe pid rfl
      simp only [handleLobbyMessages]
      apply sessionInvStrong_applyMountEffects_of_eq _ _ rfl
      refine ⟨?_, ?_, ?_⟩
      · intro _
        exact rosterKeys_delete_mem _ _ _ hne (hkey (Or.inl hL))
      · intro hn
        have hn' : s.lobbyState = none := hn
        rw [hL] at hn'
        exact Option.noConfusion hn'
      · intro _
        exact hL
    | ownerLeftLobby n =>
      simp only [handleLobbyMessages]
      by_cases hn : s.id = n
      · rw [if_pos hn]
        apply sessionInvStrong_applyMountEffects_of_eq _ _ rfl
        refine ⟨?_, ?_, ?_⟩
        · intro _
          exact hkey (Or.inl hL)
        · intro h0
          have h0' : s.lobbyState = none := h0
          rw [hL] at h0'
          exact Option.noConfusion h0'
        · intro _
          exact hL
      · rw [if_neg hn, applyMountEffects_self]
        exact ⟨hkey, hnone, hreg⟩
    | startGame =>
      simp only [handleLobbyMessages]
      unfold applyMountEffects
      rw [if_neg (fun hc => absurd hc.1 (by simp)), if_pos ⟨hL, by simp⟩]
      refine ⟨?_, ?_, ?_⟩
      · intro _
        exact hkey (Or.inl hL)
      · intro hn
        have hn' : (some LobbyState.inGame : Option LobbyState) = none := hn
        exact Option.noConfusion hn'
      · intro hr
        exact Bool.noConfusion hr
    | handshake i u =>
      simp only [handleLobbyMessages]
      rw [applyMountEffects_self]
      exact ⟨hkey, hnone, hreg⟩
    | lobbies l =>
      simp only [handleLobbyMessages]
      rw [applyMountEffects_self]
      exact ⟨hkey, hnone, hreg⟩
    | joinLobby l ps =>
      simp only [handleLobbyMessages]
      rw [applyMountEffects_self]
      exact ⟨hkey, hnone, hreg⟩
    | error msg =>
      simp only [handleLobbyMessages]
      rw [applyMountEffects_self]
      exact ⟨hkey, hnone, hreg⟩
    | lobbyOwnerChanged n =>
      simp only [handleLobbyMessages]
      rw [applyMountEffects_self]
      exact ⟨hkey, hnone, hreg⟩
    | clickCard loc =>
      simp only [handleLobbyMessages]
      rw [applyMountEffects_self]
      exact ⟨hkey, hnone, hreg⟩
    | initialCards ci tu =>
      simp only [handleLobbyMessages]
      rw [applyMountEffects_self]
      exact ⟨hkey, hnone, hreg⟩
  · rw [if_neg hb, applyMountEffects_self]
    exact ⟨hkey, hnone, hreg⟩

theorem handleLobbyMessages_preserves_id (m : ServerMessage) (s : SessionState) :
    (handleLobbyMessages m s).id = s.id := by
  cases m <;> first
    | rfl
    | (simp only [handleLobbyMessages]; split_ifs <;> rfl)

theorem addToLobbyHandler_preserves_id (t : Nat) (m : ServerMessage) (s : SessionState) :
    (addToLobbyHandler t m s).id = s.id := by
  cases m <;> rfl

theorem sessionStep_preserves_id (s : SessionState) (e : SessionEvent) :
    (sessionStep s e).id = s.id := by
  cases e with
  | mountLobby t =>
      simp only [sessionStep]
      by_cases ht : s.lobbyId = some t
      · rw [if_neg (by simp [ht])]
        rw [applyMountEffects_id]
      · rw [if_pos ht]
  | inbound m =>
      simp only [sessionStep]
      rw [applyMountEffects_id]
      have hs1 : (match s.addToLobbyReg with
          | some t => addToLobbyHandler t m s
          | none => s).id = s.id := by
        cases s.addToLobbyReg with
        | none => rfl
        | some t => exact addToLobbyHandler_preserves_id t m s
      split
      · rw [handleLobbyMessages_preserves_id]
        exact hs1
      · exact hs1
  | leaveRoute t =>
      simp only [sessionStep]
      split <;> rfl

theorem sessionStep_preserves_inv (s : SessionState) (e : SessionEvent)
    (hinv : SessionInvStrong s)
    (hsafe : ∀ pid,
      e = SessionEvent.inbound (ServerMessage.playerLeftLobby pid) → pid ≠ s.id) :
    SessionInvStrong (sessionStep s e) := by
  obtain ⟨hkey, hnone, hreg⟩ := hinv
  cases e with
  | mountLobby t =>
      simp only [sessionStep]
      by_cases ht : s.lobbyId = some t
      · rw [if_neg (by simp [ht])]
        refine ⟨?_, ?_, ?_⟩
        · intro _
          rw [applyMountEffects_id, applyMountEffects_players]
          exact rosterKeys_set_self _ _ _
        · intro hn
          rw [applyMountEffects_lobbyState] at hn
          exact Option.noConfusion hn
        · intro _
          rw [applyMountEffects_lobbyState]
      · rw [if_pos ht]
        exact ⟨hkey, hnone, hreg⟩
  | inbound m =>
      cases haddr : s.addToLobbyReg
      case none =>
        simp only [sessionStep, haddr]
        exact steady_dispatch_preserves s m hkey hnone hreg
          (fun pid hm => hsafe pid (by rw [hm]))
      case some t =>
        cases m
        case joinLobby l ps =>
          simp only [sessionStep, haddr, addToLobbyHandler, handleLobbyMessages,
            ite_self]
          refine ⟨?_, ?_, ?_⟩
          · intro _
            rw [applyMountEffects_id, applyMountEffects_players]
            exact rosterKeys_foldl_set_mem ps _ _ (rosterKeys_set_self _ _ _)
          · intro hn
            rw [applyMountEffects_lobbyState] at hn
            exact Option.noConfusion hn
          · intro _
            rw [applyMountEffects_lobbyState]
        all_goals
          simp only [sessionStep, haddr, addToLobbyHandler]
          refine steady_dispatch_preserves
            { s with addToLobbyReg := none, wentHome := true } _ ?_ ?_ ?_ ?_
          · exact hkey
          · exact hnone
          · exact hreg
          · intro pid hm
            exact hsafe pid (by rw [hm])
  | leaveRoute t =>
      simp only [sessionStep]
      by_cases ht : s.lobbyId = some t
      · rw [if_pos ht]
        refine ⟨?_, ?_, ?_⟩
        · intro h
          rcases h with h | h <;> exact Option.noConfusion h
        · intro _
          exact ⟨rfl, rfl⟩
        · intro hr
          exact Bool.noConfusion hr
      · rw [if_neg ht]
        refine ⟨?_, ?_, ?_⟩
        · intro h
          exact hkey h
        · intro hn
          exact ⟨(hnone hn).1, rfl⟩
        · intro hr
          exact Bool.noConfusion hr

theorem runSession_inv (events : List SessionEvent) :
    ∀ (s : SessionState), SessionInvStrong s →
      (∀ pid, SessionEvent.inbound (ServerMessage.playerLeftLobby pid) ∈ events →
        pid ≠ s.id) →
      SessionInvStrong (runSession s events) ∧ (runSession s events).id = s.id := by
  induction events with
  | nil =>
      intro s h _
      exact ⟨h, rfl⟩
  | cons e es ih =>
      intro s h hsafe
      have hstep : SessionInvStrong (sessionStep s e) :=
        sessionStep_preserves_inv s e h
          (fun pid he => hsafe pid (by rw [← he]; exact List.mem_cons_self e es))
      have hid := sessionStep_preserves_id s e
      have hrest := ih (sessionStep s e) hstep
        (fun pid hm => by
          rw [hid]
          exact hsafe pid (List.mem_cons_of_mem e hm))
      refine ⟨hrest.1, ?_⟩
      calc (runSession s (e :: es)).id
          = (runSession (sessionStep s e) es).id := rfl
        _ = (sessionStep s e).id := hrest.2
        _ = s.id := hid

/-! ## C1: `send` transmits only when Open -/

/-- C1: for every socket state and message, when the connection's
lifecycle state is not Open, `send` is the identity on the whole state
(nothing transmitted, nothing queued or buffered, no exception since
the function is total); when it is Open, `send` appends exactly the
JSON serialization of the message to the transmitted frames and
changes nothing else. -/
theorem send_open_iff_transmits (s : Socket) (m : ClientMessage) :
    (s.connection.readyState ≠ ReadyState.OPEN → s.send m = s) ∧
    (s.connection.readyState = ReadyState.OPEN →
      s.send m =
        { s with connection :=
            { s.connection with
                sentFrames := s.connection.sentFrames ++ [serializeClient m] } }) := by
  constructor
  · intro h
    simp [Socket.send, h]
  · intro h
    simp [Socket.send, h]

/-- Witness for C1 at concrete inputs: a connecting socket drops
`leaveLobby`; the same socket once open transmits exactly its JSON
text. -/
theorem send_open_iff_transmits_witness :
    (Socket.new "ws://localhost:7522").send ClientMessage.leaveLobby
        = Socket.new "ws://localhost:7522" ∧
    ({ Socket.new "ws://localhost:7522" with
        connection := { (Socket.new "ws://localhost:7522").connection with
          readyState := ReadyState.OPEN } }).send ClientMessage.leaveLobby
      = { Socket.new "ws://localhost:7522" with
          connection := { (Socket.new "ws://localhost:7522").connection with
            readyState := ReadyState.OPEN,
            sentFrames := ["\"leaveLobby\""] } } := by
  refine ⟨(send_open_iff_transmits _ _).1 (by decide), ?_⟩
  have h := (send_open_iff_transmits
    ({ Socket.new "ws://localhost:7522" with
        connection := { (Socket.new "ws://localhost:7522").connection with
          readyState := ReadyState.OPEN } }) ClientMessage.leaveLobby).2 (by rfl)
  rw [h]
  rfl

end Shithead

namespace Shithead

/-! ## C5: lobby join happy path -/

/-- C5: from `NotInLobby` (the initial state, local client id 1 named
"a"), mounting the lobby view for id 5 sends exactly the command
`joinLobby{id:5}`, and the acknowledgement
`joinLobby{lobbyId:5, players:[{id:1,username:"a"}]}` then leaves
phase `'inLobby'`, roster `{1:"a"}`, lobby id 5, the transient
`"addToLobby"` handler deregistered, and the steady-state
`handleLobbyMessages` handler registered (by the mount of the
`InLobby` component that the phase change triggers). -/
theorem lobby_join_happy_path :
    (sessionStep (initialSession 1 "a") (SessionEvent.mountLobby 5)).sent
        = [ClientMessage.joinLobby 5] ∧
    (let s := sessionStep
        (sessionStep (initialSession 1 "a") (SessionEvent.mountLobby 5))
        (SessionEvent.inbound (ServerMessage.joinLobby 5 [⟨1, "a"⟩]))
     s.lobbyState = some LobbyState.inLobby ∧
     s.players = [(1, "a")] ∧
     s.lobbyId = some 5 ∧
     s.addToLobbyReg = none ∧
     s.handleLobbyReg = true ∧
     s.sent = [ClientMessage.joinLobby 5]) := by
  exact ⟨rfl, rfl, rfl, rfl, rfl, rfl, rfl⟩

/-! ## C6: lobby join rejection -/

/-- Does the message match the `joinLobby` acknowledgement pattern
(`.with({joinLobby: P.any}, ...)`)? -/
def ServerMessage.isJoinAck : ServerMessage → Bool
  | ServerMessage.joinLobby _ _ => true
  | _ => false

theorem addToLobbyHandler_not_ack (t : Nat) (m : ServerMessage)
    (s : SessionState) (hm : m.isJoinAck = false) :
    addToLobbyHandler t m s = { s with addToLobbyReg := none, wentHome := true } := by
  cases m <;> first
    | rfl
    | exact absurd hm (by simp [ServerMessage.isJoinAck])

/-- C6: from `NotInLobby`, after the join request for lobby `t` was
sent, any inbound message other than the `joinLobby` acknowledgement
makes the transient handler deregister itself and signal navigation
home, leaving the rest of the state exactly as it was: phase still
`NotInLobby`, roster still empty, `isOwner` still false, and no
further command sent. -/
theorem lobby_join_rejection (selfId : Nat) (selfName : String) (t : Nat)
    (m : ServerMessage) (hm : m.isJoinAck = false) :
    runSession (initialSession selfId selfName)
        [SessionEvent.mountLobby t, SessionEvent.inbound m]
      = { lobbyId := none, lobbyState := none, players := [], isOwner := false,
          id := selfId, name := selfName, addToLobbyReg := none,
          handleLobbyReg := false, sent := [ClientMessage.joinLobby t],
          wentHome := true } := by
  show sessionStep (sessionStep (initialSession selfId selfName)
      (SessionEvent.mountLobby t)) (SessionEvent.inbound m) = _
  have hmount : sessionStep (initialSession selfId selfName)
      (SessionEvent.mountLobby t)
      = { lobbyId := none, lobbyState := none, players := [], isOwner := false,
          id := selfId, name := selfName, addToLobbyReg := some t,
          handleLobbyReg := false, sent := [ClientMessage.joinLobby t],
          wentHome := false } := rfl
  rw [hmount]
  simp only [sessionStep]
  rw [addToLobbyHandler_not_ack t m _ hm]
  rfl

/-- Witness for C6 at the spec's concrete scenario: the server answers
the join request for lobby 5 with `error{message:"full"}`. -/
theorem lobby_join_rejection_witness :
    runSession (initialSession 1 "a")
        [SessionEvent.mountLobby 5,
         SessionEvent.inbound (ServerMessage.error "full")]
      = { lobbyId := none, lobbyState := none, players := [], isOwner := false,
          id := 1, name := "a", addToLobbyReg := none,
          handleLobbyReg := false, sent := [ClientMessage.joinLobby 5],
          wentHome := true } :=
  lobby_join_rejection 1 "a" 5 (ServerMessage.error "full") rfl

/-! ## C7: ownership reassignment -/

/-- State for the C7 counterexample: in lobby 5, roster {1:"a",2:"b"},
local client id 2 currently the owner, steady-state handler
registered. -/
def ownerState : SessionState :=
  { lobbyId := some 5, lobbyState := some LobbyState.inLobby,
    players := [(1, "a"), (2, "b")], isOwner := true, id := 2, name := "b",
    addToLobbyReg := none, handleLobbyReg := true, sent := [],
    wentHome := false }

/-- C7 counterexample: `ownerLeftLobby{newOwnerId:1}` arrives while
the local client (id 2) holds `isOwner = true`. The claim demands
`isOwner` become false because 1 ≠ 2, but the `ownerLeftLobby` branch
only ever sets `isOwner` to true (the non-matching side merely emits a
notification), so it stays true. -/
theorem ownerLeft_nonself_keeps_isOwner :
    ownerState.id ≠ 1 ∧ ownerState.isOwner = true ∧
    (handleLobbyMessages (ServerMessage.ownerLeftLobby 1) ownerState).isOwner
      = true := by
  exact ⟨by decide, rfl, rfl⟩

/-- C7 amended: handling `ownerLeftLobby{newOwnerId}` sets `isOwner`
to true when the new owner id equals the local client id and leaves
the state (including `isOwner`) unchanged otherwise; roster and phase
are unchanged in both cases. A `lobbyOwnerChanged` message matches no
branch of `handleLobbyMessages` and leaves the state unchanged. -/
theorem ownership_reassignment (s : SessionState) (n : Nat) :
    (handleLobbyMessages (ServerMessage.ownerLeftLobby n) s
      = if s.id = n then { s with isOwner := true } else s) ∧
    handleLobbyMessages (ServerMessage.lobbyOwnerChanged n) s = s :=
  ⟨rfl, rfl⟩

/-! ## C8: leave -/

/-- C8 counterexample: after joining lobby 5 and receiving
`startGame` the session is `InGame`; leaving the lobby route still
sends exactly one `leaveLobby` command, because `onBeforeRouteLeave`
guards only on the lobby id matching the route, not on the phase —
so the claim that leaving while `InGame` sends nothing is false. -/
theorem leave_while_inGame_sends_leaveLobby :
    (let s := runSession (initialSession 1 "a")
        [SessionEvent.mountLobby 5,
         SessionEvent.inbound (ServerMessage.joinLobby 5 [⟨1, "a"⟩]),
         SessionEvent.inbound ServerMessage.startGame]
     s.lobbyState = some LobbyState.inGame ∧
     s.sent.count ClientMessage.leaveLobby = 0 ∧
     (sessionStep s (SessionEvent.leaveRoute 5)).sent.count
        ClientMessage.leaveLobby = 1) := by
  exact ⟨rfl, rfl, rfl⟩

/-- C8 amended: leaving the lobby route while the session's lobby id
matches the route's — whether the phase is `InLobby` or `InGame` —
sends exactly one `leaveLobby` command, clears the roster, resets
`isOwner`, returns the phase to `NotInLobby`, and leaves the
steady-state handler deregistered; when the lobby id does not match,
no command is sent and only `isOwner` is reset and the handler
removed by the unmounting view tree. -/
theorem leave_route_resets_session (s : SessionState) (t : Nat) :
    (s.lobbyId = some t →
      sessionStep s (SessionEvent.leaveRoute t)
        = { s with lobbyState := none, players := [],
                   sent := s.sent ++ [ClientMessage.leaveLobby],
                   isOwner := false, handleLobbyReg := false }) ∧
    (s.lobbyId ≠ some t →
      sessionStep s (SessionEvent.leaveRoute t)
        = { s with isOwner := false, handleLobbyReg := false }) := by
  constructor
  · intro h
    simp only [sessionStep]
    rw [if_pos h]
  · intro h
    simp only [sessionStep]
    rw [if_neg h]

/-- Witness for C8 amended: a member of lobby 5 leaving the lobby-5
route ends with the session reset and one `leaveLobby` sent; leaving
a non-matching route only resets `isOwner`. -/
theorem leave_route_resets_session_witness :
    sessionStep
        ({ initialSession 1 "a" with
            lobbyId := some 5
            lobbyState := some LobbyState.inLobby
            players := [(1, "a")]
            handleLobbyReg := true })
        (SessionEvent.leaveRoute 5)
      = { initialSession 1 "a" with
          lobbyId := some 5
          lobbyState := none
          players := []
          sent := [ClientMessage.leaveLobby]
          isOwner := false
          handleLobbyReg := false } ∧
    sessionStep
        ({ initialSession 1 "a" with
            lobbyId := some 5
            lobbyState := some LobbyState.inLobby
            players := [(1, "a")]
            handleLobbyReg := true })
        (SessionEvent.leaveRoute 9)
      = { initialSession 1 "a" with
          lobbyId := some 5
          lobbyState := some LobbyState.inLobby
          players := [(1, "a")]
          isOwner := false
          handleLobbyReg := false } := by
  constructor
  case left =>
    rw [(leave_route_resets_session _ 5).1 rfl]
    decide
  case right =>
    rw [(leave_route_resets_session _ 9).2 (by decide)]

/-! ## C9: the session invariant -/

/-- C9 counterexample: the invariant "roster non-empty exactly when
`InLobby` or `InGame`" is not preserved by every handler: a
`playerLeftLobby` carrying the local client's own id empties the
roster while the phase stays `'inLobby'`. -/
theorem invariant_fails_on_self_playerLeft :
    (let s := runSession (initialSession 1 "a")
        [SessionEvent.mountLobby 5,
         SessionEvent.inbound (ServerMessage.joinLobby 5 []),
         SessionEvent.inbound (ServerMessage.playerLeftLobby 1)]
     s.lobbyState = some LobbyState.inLobby ∧ s.players = []) := by
  exact ⟨rfl, rfl⟩

/-- C9 amended: for every sequence of session events in which no
`playerLeftLobby` event carries the local client's own id, every state
reachable from the initial state satisfies the invariant: the roster
is non-empty exactly when the phase is `InLobby` or `InGame`, and
`isOwner` is false whenever the phase is `NotInLobby`. -/
theorem session_invariant_holds (selfId : Nat) (selfName : String)
    (events : List SessionEvent)
    (hsafe : ∀ pid,
      SessionEvent.inbound (ServerMessage.playerLeftLobby pid) ∈ events →
      pid ≠ selfId) :
    SessionInv (runSession (initialSession selfId selfName) events) := by
  have hinit : SessionInvStrong (initialSession selfId selfName) := by
    refine ⟨?_, ?_, ?_⟩
    · intro h
      rcases h with h | h <;> exact Option.noConfusion h
    · intro _
      exact ⟨rfl, rfl⟩
    · intro h
      exact Bool.noConfusion h
  obtain ⟨⟨hkey, hnone, hreg⟩, _⟩ :=
    runSession_inv events (initialSession selfId selfName) hinit hsafe
  refine ⟨⟨?_, ?_⟩, ?_⟩
  · intro hne
    cases hls : (runSession (initialSession selfId selfName) events).lobbyState with
    | none => exact absurd (hnone hls).1 hne
    | some st =>
        cases st with
        | inLobby => exact Or.inl rfl
        | inGame => exact Or.inr rfl
  · intro hor
    exact ne_nil_of_mem_rosterKeys (hkey hor)
  · intro hn
    exact (hnone hn).2

/-- Witness for C9 amended: a join followed by another member (id 2)
joining and leaving again keeps the invariant. -/
theorem session_invariant_holds_witness :
    SessionInv (runSession (initialSession 1 "a")
      [SessionEvent.mountLobby 5,
       SessionEvent.inbound (ServerMessage.joinLobby 5 [⟨2, "b"⟩]),
       SessionEvent.inbound (ServerMessage.playerLeftLobby 2)]) := by
  apply session_invariant_holds
  intro pid h
  simp only [List.mem_cons, List.not_mem_nil, or_false] at h
  rcases h with h | h | h
  · exact SessionEvent.noConfusion h
  · exact ServerMessage.noConfusion (SessionEvent.inbound.inj h)
  · have : pid = 2 := ServerMessage.playerLeftLobby.inj (SessionEvent.inbound.inj h)
    subst this
    decide

/-! ## C10: duplicate roster events are idempotent -/

/-- C10: handling the same `playerJoinedLobby`, `playerLeftLobby` or
`ownerLeftLobby` message twice in succession leaves the same session
state as handling it once, and a `playerLeftLobby` whose id is absent
from the roster leaves the state unchanged. -/
theorem roster_events_idempotent (s : SessionState) (pid n : Nat)
    (pname : String) :
    handleLobbyMessages (ServerMessage.playerJoinedLobby pid pname)
        (handleLobbyMessages (ServerMessage.playerJoinedLobby pid pname) s)
      = handleLobbyMessages (ServerMessage.playerJoinedLobby pid pname) s ∧
    handleLobbyMessages (ServerMessage.playerLeftLobby pid)
        (handleLobbyMessages (ServerMessage.playerLeftLobby pid) s)
      = handleLobbyMessages (ServerMessage.playerLeftLobby pid) s ∧
    handleLobbyMessages (ServerMessage.ownerLeftLobby n)
        (handleLobbyMessages (ServerMessage.ownerLeftLobby n) s)
      = handleLobbyMessages (ServerMessage.ownerLeftLobby n) s ∧
    (pid ∉ rosterKeys s.players →
      handleLobbyMessages (ServerMessage.playerLeftLobby pid) s = s) := by
  refine ⟨?_, ?_, ?_, ?_⟩
  · simp only [handleLobbyMessages]
    rw [rosterSet_idem]
  · simp only [handleLobbyMessages]
    rw [rosterDelete_idem]
  · by_cases h : s.id = n <;> simp [handleLobbyMessages, h]
  · intro h
    simp only [handleLobbyMessages]
    rw [rosterDelete_absent _ _ h]

/-- Witness for C10: removing the absent id 7 from the empty roster of
the initial state is a no-op. -/
theorem roster_events_idempotent_witness :
    handleLobbyMessages (ServerMessage.playerLeftLobby 7) (initialSession 1 "a")
      = initialSession 1 "a" :=
  (roster_events_idempotent (initialSession 1 "a") 7 0 "x").2.2.2 (by decide)

end Shithead
